import Mathlib

/-!
Verification development for the WriteSense voice document editor front-end.

The TypeScript sources are shallowly embedded:
JavaScript strings become `List Char`, timestamps (`new Date().toISOString()`)
and generated uuids become `Nat` parameters, and the React `useState` cells
touched by the voice-command pipeline become fields of an explicit state
record.  Each definition mirrors one function of the source.
-/

/-- Strings are modelled as lists of characters (JavaScript strings). -/
abbrev Str := List Char

/-- Coerce a Lean string literal into the character-list model. -/
def str (s : String) : Str := s.data

/-- Whitespace recognised by the model of JavaScript `String.prototype.trim`
(the strings handled by the source only involve space, tab, CR and LF). -/
def isWS (c : Char) : Bool := c == ' ' || c == '\n' || c == '\t' || c == '\r'

/-- Drop leading whitespace. -/
def ltrimStr (s : Str) : Str := s.dropWhile isWS

/-- Drop trailing whitespace. -/
def rtrimStr (s : Str) : Str := (s.reverse.dropWhile isWS).reverse

/-- Model of JavaScript `s.trim()`. -/
def trimStr (s : Str) : Str := rtrimStr (ltrimStr s)

/-- Model of JavaScript `s.startsWith(p)`: `hasPre s p` holds when `p` is a
prefix of `s`. -/
def hasPre : Str → Str → Bool
  | _, [] => true
  | [], _ :: _ => false
  | c :: cs, d :: ds => c == d && hasPre cs ds

/-- Model of JavaScript `s.includes(p)` (substring containment). -/
def strIncludes : Str → Str → Bool
  | [], p => hasPre [] p
  | c :: t, p => hasPre (c :: t) p || strIncludes t p

/-- Model of JavaScript `s.split('\n')`. -/
def splitNl : Str → List Str
  | [] => [[]]
  | c :: cs =>
    if c = '\n' then [] :: splitNl cs
    else
      match splitNl cs with
      | [] => [[c]]
      | l :: ls => (c :: l) :: ls

/-- Model of JavaScript `lines.join('\n')`. -/
def joinNl : List Str → Str
  | [] => []
  | [x] => x
  | x :: y :: ys => x ++ '\n' :: joinNl (y :: ys)

/-- Model of JavaScript `s.split(' ')` (used by `extractTitleFromContent`). -/
def splitSpace : Str → List Str
  | [] => [[]]
  | c :: cs =>
    if c = ' ' then [] :: splitSpace cs
    else
      match splitSpace cs with
      | [] => [[c]]
      | l :: ls => (c :: l) :: ls

/-- Model of JavaScript `words.join(' ')`. -/
def joinSpace : List Str → Str
  | [] => []
  | [x] => x
  | x :: y :: ys => x ++ ' ' :: joinSpace (y :: ys)

/-- ASCII model of JavaScript `s.toLowerCase()`; the action vocabulary the
source compares against is plain ASCII and the Vietnamese keyword literals
are already lower case, so only ASCII letters need to be mapped. -/
def toLowerChar (c : Char) : Char :=
  if 'A' ≤ c ∧ c ≤ 'Z' then Char.ofNat (c.toNat + 32) else c

/-- Lower-case a whole string. -/
def toLowerStr (s : Str) : Str := s.map toLowerChar

/-- Decimal rendering of a number interpolated into a template literal. -/
def natToStr (n : Nat) : Str := (toString n).data

/-! ## Agent response protocol parser

Embedding of `parseAndProcessAgentResponse` (src/src/app/page.tsx,
lines 355-401).  The outer loop scans trimmed lines; a line starting with
`Action:` (re)sets the action type; the first line starting with
`Action content:` starts the inner collection loop, which gathers trimmed
lines until one starts with `Answer:`; the answer is everything from that
line on (original, untrimmed lines joined), with its first 7 characters
removed and the result trimmed. -/

/-- Inner loop of the parser (`for (let j = i; ...)`): collects content
lines, and extracts the answer from the first line that starts with
`Answer:`.  The `first` flag marks `j === i`, where the
`Action content:` prefix (15 characters) is stripped. -/
def collectContent : Bool → List Str → List Str × Str
  | _, [] => ([], [])
  | first, l :: ls =>
    let cur := trimStr l
    if hasPre cur (str "Answer:") then
      ([], trimStr ((joinNl (l :: ls)).drop 7))
    else
      let rest := collectContent false ls
      if first then (trimStr (cur.drop 15) :: rest.1, rest.2)
      else (cur :: rest.1, rest.2)

/-- Outer loop of the parser; `acc` is the `actionType` accumulated so far. -/
def parseScan : List Str → Str → Str × Str × Str
  | [], acc => (acc, [], [])
  | l :: ls, acc =>
    let line := trimStr l
    if hasPre line (str "Action:") then parseScan ls (trimStr (line.drop 7))
    else if hasPre line (str "Action content:") then
      let r := collectContent true (l :: ls)
      (acc, trimStr (joinNl r.1), r.2)
    else parseScan ls acc

/-- Parse one agent reply into `(actionType, actionContent, answer)`,
mirroring `parseAndProcessAgentResponse`'s parsing phase:
`response.trim().split('\n')` scanned by the two loops above. -/
def parseReply (response : Str) : Str × Str × Str :=
  parseScan (splitNl (trimStr response)) []

/-- Canonical serialization named by the round-trip property of the spec:
`"Action: <actionType>\nAction content: <actionContent>\nAnswer: <answer>"`.
Modelled from the spec; the source itself never serializes replies. -/
def serializeReply (actionType actionContent answer : Str) : Str :=
  str "Action: " ++ actionType ++ '\n' ::
    (str "Action content: " ++ actionContent ++ '\n' ::
      (str "Answer: " ++ answer))

/-! ## Document data model

Embedding of the `Document`/`Page` shapes from src/src/types/index.ts as used
by src/src/app/page.tsx, and of the pieces of `HomePage` state the voice
pipeline touches.  ISO timestamp strings and uuids are abstracted to `Nat`
parameters supplied by the caller. -/

structure Page where
  id : Nat
  title : Str
  content : Str
  page_number : Nat
  created_at : Nat
  updated_at : Nat
deriving DecidableEq, Repr

structure Document where
  id : Nat
  title : Str
  pages : List Page
  current_page : Nat
  created_at : Nat
  updated_at : Nat
deriving DecidableEq, Repr

/-- One entry of the conversation history. -/
structure ChatMsg where
  role : Str
  content : Str
deriving DecidableEq, Repr

/-- The `useState` cells of `HomePage` that the voice-command pipeline reads
or writes. -/
structure AppState where
  documents : List Document
  currentDocument : Option Document
  agentResponse : Str
  searchQuery : Str
  isEditing : Bool
  conversationHistory : List ChatMsg
deriving DecidableEq, Repr

/-- Model of the JavaScript string fallback `a || b` (empty string is falsy). -/
def jsOr (a b : Str) : Str := if a = [] then b else a

/-- `getCurrentPage` (page.tsx, lines 46-48):
`document.pages.find(page => page.page_number === document.current_page)`. -/
def getCurrentPage (document : Document) : Option Page :=
  document.pages.find? fun page => page.page_number == document.current_page

/-- `updateDocument` (page.tsx, lines 50-57): replace the document with the
same id in the list and make it current. -/
def updateDocument (s : AppState) (updatedDoc : Document) : AppState :=
  { s with
    documents := s.documents.map fun doc =>
      if doc.id = updatedDoc.id then updatedDoc else doc,
    currentDocument := some updatedDoc }

/-- `handleDocumentDelete` (page.tsx, lines 859-865). -/
def handleDocumentDelete (s : AppState) (documentId : Nat) : AppState :=
  let s1 := { s with documents := s.documents.filter fun doc => doc.id != documentId }
  match s1.currentDocument with
  | some d =>
    if d.id = documentId then
      { s1 with currentDocument := none, isEditing := false }
    else s1
  | none => s1

/-- `handleDocumentCreate` (page.tsx, lines 840-845). -/
def handleDocumentCreate (s : AppState) : AppState :=
  { s with currentDocument := none, isEditing := true, conversationHistory := [] }

/-- `manageConversationHistory` (page.tsx, lines 37-43): keep the last 20
entries (`newHistory.slice(-MAX_HISTORY_LENGTH)`). -/
def manageConversationHistory (newHistory : List ChatMsg) : List ChatMsg :=
  if 20 < newHistory.length then newHistory.drop (newHistory.length - 20)
  else newHistory

/-- History update performed after a completed round trip
(`handleVoiceCommand`, page.tsx, lines 318-322). -/
def appendTurn (prev : List ChatMsg) (u a : ChatMsg) : List ChatMsg :=
  manageConversationHistory (prev ++ [u, a])

/-- `extractTitleFromContent` (page.tsx, lines 713-724). -/
def extractTitleFromContent (content : Str) : Str :=
  if content = [] then []
  else
    let firstLine := trimStr ((splitNl content).headD [])
    if 0 < firstLine.length ∧ firstLine.length ≤ 100 then firstLine
    else
      let words := (splitSpace firstLine).take 8
      joinSpace words ++ (if words.length = 8 then str "..." else [])

/-- Model of one JavaScript regex `/lit (.*)/` applied by `extractSearchTerm`:
the capture is everything after the first occurrence of the literal, up to
the end of the line. -/
def firstMatchCapture (pat : Str) : Str → Option Str
  | [] => if hasPre [] pat then some [] else none
  | c :: t =>
    if hasPre (c :: t) pat then some (((c :: t).drop pat.length).takeWhile (· ≠ '\n'))
    else firstMatchCapture pat t

/-- Pattern list walk of `extractSearchTerm` (page.tsx, lines 815-831):
return the first non-empty capture, trimmed. -/
def extractSearchTermAux : List Str → Str → Str
  | [], _ => []
  | p :: ps, lower =>
    match firstMatchCapture p lower with
    | some cap => if cap ≠ [] then trimStr cap else extractSearchTermAux ps lower
    | none => extractSearchTermAux ps lower

/-- `extractSearchTerm` (page.tsx, lines 815-831). -/
def extractSearchTerm (command : Str) : Str :=
  extractSearchTermAux
    [str "tìm kiếm ", str "tìm ", str "tìm kiếm về ", str "tìm về "]
    (toLowerStr command)

/-! ## Action dispatcher

`processNewAgentAction` (page.tsx, lines 404-710): a `switch` on the
lower-cased action type.  The switch is rendered as a classifier into an
enumeration followed by one handler per case. -/

inductive AgentAction where
  | addToPage | rewritePage | createDoc | setTitleDoc | readTitleDoc
  | setTitlePage | readTitlePage | addPage | nextPage | prevPage
  | readPage | deletePage | removeDoc | saveDoc | replyUser | unknownAction
deriving DecidableEq, Repr

/-- The `switch (actionType.toLowerCase())` discrimination. -/
def classifyAction (actionType : Str) : AgentAction :=
  let lt := toLowerStr actionType
  if lt = str "add_to_page" then .addToPage
  else if lt = str "rewrite_page" then .rewritePage
  else if lt = str "create_doc" then .createDoc
  else if lt = str "set_title_doc" then .setTitleDoc
  else if lt = str "read_title_doc" then .readTitleDoc
  else if lt = str "set_title_page" then .setTitlePage
  else if lt = str "read_title_page" then .readTitlePage
  else if lt = str "add_page" then .addPage
  else if lt = str "next_page" then .nextPage
  else if lt = str "prev_page" then .prevPage
  else if lt = str "read_page" then .readPage
  else if lt = str "delete_page" then .deletePage
  else if lt = str "remove_doc" then .removeDoc
  else if lt = str "save_doc" then .saveDoc
  else if lt = str "reply_user" then .replyUser
  else .unknownAction

/-- `processNewAgentAction` (page.tsx, lines 404-710).  `now` stands for
`new Date().toISOString()`, `freshDocId`/`freshPageId` for the `uuidv4()`
calls of the `create_doc` and `add_page` cases. -/
def processNewAgentAction (actionType actionContent answer : Str)
    (s : AppState) (now freshDocId freshPageId : Nat) : AppState :=
  match classifyAction actionType with
  | .addToPage =>
    match s.currentDocument with
    | some doc =>
      match getCurrentPage doc with
      | some currentPage =>
        let updatedPages := doc.pages.map fun page =>
          if page.id = currentPage.id then
            { page with
              content := page.content ++ (if page.content ≠ [] then ['\n'] else []) ++ actionContent,
              updated_at := now }
          else page
        let s1 := updateDocument s { doc with pages := updatedPages, updated_at := now }
        let response := jsOr answer (str "Đã thêm nội dung vào trang " ++ natToStr currentPage.page_number ++ str ".")
        { s1 with agentResponse := response }
      | none => s
    | none =>
      let response := jsOr answer (str "Không có tài liệu nào được chọn để thêm nội dung.")
      { s with agentResponse := response }
  | .rewritePage =>
    match s.currentDocument with
    | some doc =>
      match getCurrentPage doc with
      | some currentPage =>
        let updatedPages := doc.pages.map fun page =>
          if page.id = currentPage.id then
            { page with content := actionContent, updated_at := now }
          else page
        let s1 := updateDocument s { doc with pages := updatedPages, updated_at := now }
        let response := jsOr answer (str "Đã viết lại nội dung trang " ++ natToStr currentPage.page_number ++ str ".")
        { s1 with agentResponse := response }
      | none => s
    | none =>
      let response := jsOr answer (str "Không có tài liệu nào được chọn để viết lại nội dung.")
      { s with agentResponse := response }
  | .createDoc =>
    let newDoc : Document :=
      { id := freshDocId,
        title := jsOr (extractTitleFromContent actionContent) (str "Tài liệu mới"),
        pages := [{ id := freshPageId, title := [], content := actionContent,
                    page_number := 1, created_at := now, updated_at := now }],
        current_page := 1, created_at := now, updated_at := now }
    let createResponse := jsOr answer (str "Đã tạo tài liệu mới: \"" ++ newDoc.title ++ str "\"")
    { s with
      documents := newDoc :: s.documents,
      currentDocument := some newDoc,
      agentResponse := createResponse }
  | .setTitleDoc =>
    match s.currentDocument with
    | some doc =>
      let s1 := updateDocument s { doc with title := actionContent, updated_at := now }
      let response := jsOr answer (str "Đã đặt tiêu đề tài liệu: \"" ++ actionContent ++ str "\"")
      { s1 with agentResponse := response }
    | none =>
      let response := jsOr answer (str "Không có tài liệu nào được chọn để đặt tiêu đề.")
      { s with agentResponse := response }
  | .readTitleDoc =>
    match s.currentDocument with
    | some doc =>
      let response := jsOr answer (str "Tiêu đề tài liệu là: \"" ++ doc.title ++ str "\"")
      { s with agentResponse := response }
    | none =>
      let response := jsOr answer (str "Không có tài liệu nào được chọn để đọc tiêu đề.")
      { s with agentResponse := response }
  | .setTitlePage =>
    match s.currentDocument with
    | some doc =>
      match getCurrentPage doc with
      | some currentPage =>
        let updatedPages := doc.pages.map fun page =>
          if page.id = currentPage.id then
            { page with title := actionContent, updated_at := now }
          else page
        let s1 := updateDocument s { doc with pages := updatedPages, updated_at := now }
        let response := jsOr answer (str "Đã đặt tiêu đề trang " ++ natToStr currentPage.page_number ++ str ": \"" ++ actionContent ++ str "\"")
        { s1 with agentResponse := response }
      | none => s
    | none =>
      let response := jsOr answer (str "Không có tài liệu nào được chọn để đặt tiêu đề trang.")
      { s with agentResponse := response }
  | .readTitlePage =>
    match s.currentDocument with
    | some doc =>
      match getCurrentPage doc with
      | some currentPage =>
        if currentPage.title ≠ [] then
          let response := jsOr answer (str "Tiêu đề trang " ++ natToStr currentPage.page_number ++ str " là: \"" ++ currentPage.title ++ str "\"")
          { s with agentResponse := response }
        else
          let response := jsOr answer (str "Trang " ++ natToStr currentPage.page_number ++ str " chưa có tiêu đề.")
          { s with agentResponse := response }
      | none => s
    | none =>
      let response := jsOr answer (str "Không có tài liệu nào được chọn để đọc tiêu đề trang.")
      { s with agentResponse := response }
  | .addPage =>
    match s.currentDocument with
    | some doc =>
      let newPageNumber := doc.pages.length + 1
      let newPage : Page :=
        { id := freshPageId, title := [], content := [],
          page_number := newPageNumber, created_at := now, updated_at := now }
      let s1 := updateDocument s
        { doc with
          pages := doc.pages ++ [newPage],
          current_page := newPageNumber,
          updated_at := now }
      let response := jsOr answer (str "Đã tạo trang mới số " ++ natToStr newPageNumber ++ str ". Bạn đang ở trang " ++ natToStr newPageNumber ++ str ".")
      { s1 with agentResponse := response }
    | none =>
      let response := jsOr answer (str "Không có tài liệu nào được chọn để tạo trang mới.")
      { s with agentResponse := response }
  | .nextPage =>
    match s.currentDocument with
    | some doc =>
      if doc.current_page < doc.pages.length then
        let updatedDoc := { doc with current_page := doc.current_page + 1 }
        let s1 := updateDocument s updatedDoc
        let response := jsOr answer (str "Đã chuyển đến trang " ++ natToStr updatedDoc.current_page ++ str ".")
        { s1 with agentResponse := response }
      else
        let response := jsOr answer (str "Đây là trang cuối cùng.")
        { s with agentResponse := response }
    | none =>
      let response := jsOr answer (str "Không có tài liệu nào được chọn.")
      { s with agentResponse := response }
  | .prevPage =>
    match s.currentDocument with
    | some doc =>
      if 1 < doc.current_page then
        let updatedDoc := { doc with current_page := doc.current_page - 1 }
        let s1 := updateDocument s updatedDoc
        let response := jsOr answer (str "Đã chuyển về trang " ++ natToStr updatedDoc.current_page ++ str ".")
        { s1 with agentResponse := response }
      else
        let response := jsOr answer (str "Đây là trang đầu tiên.")
        { s with agentResponse := response }
    | none =>
      let response := jsOr answer (str "Không có tài liệu nào được chọn.")
      { s with agentResponse := response }
  | .readPage =>
    match s.currentDocument with
    | some doc =>
      match getCurrentPage doc with
      | some currentPage =>
        if currentPage.content ≠ [] then
          let pageTitle := if currentPage.title ≠ [] then str " \"" ++ currentPage.title ++ str "\"" else []
          let response := jsOr answer (str "Đây là nội dung trang " ++ natToStr currentPage.page_number ++ pageTitle ++ str ": " ++ currentPage.content)
          { s with agentResponse := response }
        else
          let response := jsOr answer (str "Trang " ++ natToStr currentPage.page_number ++ str " hiện tại đang trống.")
          { s with agentResponse := response }
      | none => s
    | none =>
      let response := jsOr answer (str "Không có tài liệu nào được chọn để đọc.")
      { s with agentResponse := response }
  | .deletePage =>
    match s.currentDocument with
    | some doc =>
      if 1 < doc.pages.length then
        let currentPageNum := doc.current_page
        let updatedPages := doc.pages.filter fun page => page.page_number != currentPageNum
        let renumberedPages := updatedPages.mapIdx fun i page => { page with page_number := i + 1 }
        let newCurrentPage := Nat.min currentPageNum renumberedPages.length
        let s1 := updateDocument s
          { doc with pages := renumberedPages, current_page := newCurrentPage, updated_at := now }
        let response := jsOr answer (str "Đã xóa trang " ++ natToStr currentPageNum ++ str ".")
        { s1 with agentResponse := response }
      else
        let response := jsOr answer (str "Không thể xóa trang duy nhất trong tài liệu.")
        { s with agentResponse := response }
    | none =>
      let response := jsOr answer (str "Không có tài liệu nào được chọn để xóa trang.")
      { s with agentResponse := response }
  | .removeDoc =>
    match s.currentDocument with
    | some doc =>
      let s1 := handleDocumentDelete s doc.id
      let response := jsOr answer (str "Đã xóa tài liệu: \"" ++ doc.title ++ str "\"")
      { s1 with agentResponse := response }
    | none =>
      let response := jsOr answer (str "Không có tài liệu nào được chọn để xóa.")
      { s with agentResponse := response }
  | .saveDoc =>
    match s.currentDocument with
    | some doc =>
      let response := jsOr answer (str "Đã lưu tài liệu: \"" ++ doc.title ++ str "\"")
      { s with isEditing := false, agentResponse := response }
    | none =>
      let response := jsOr answer (str "Không có tài liệu nào để lưu.")
      { s with agentResponse := response }
  | .replyUser =>
    { s with agentResponse := jsOr answer actionContent }
  | .unknownAction =>
    let unknownResponse := jsOr answer (str "Không hiểu lệnh: " ++ actionType ++ str ".")
    { s with agentResponse := unknownResponse }

/-- `parseAndProcessAgentResponse` (page.tsx, lines 355-401): parse, then
dispatch when an action type was found, otherwise show the raw response. -/
def parseAndProcessAgentResponse (response : Str) (s : AppState)
    (now freshDocId freshPageId : Nat) : AppState :=
  let r := parseReply response
  if r.1 ≠ [] then processNewAgentAction r.1 r.2.1 r.2.2 s now freshDocId freshPageId
  else { s with agentResponse := response }

/-! ## Local fallback interpreter

`processVoiceCommandLocally` (page.tsx, lines 727-812).  The function
returns the spoken response; callers pass it to `setAgentResponse`, so the
embedding returns the new state together with that string. -/

/-- The duplicated append-to-current-page block of the fallback interpreter
(page.tsx, lines 734-748 and 794-808); `none` when there is no current
document or no current page, in which case the source falls through. -/
def tryAppendToCurrentPage (s : AppState) (command : Str) (now : Nat) :
    Option (AppState × Str) :=
  match s.currentDocument with
  | some doc =>
    match getCurrentPage doc with
    | some currentPage =>
      let updatedPages := doc.pages.map fun page =>
        if page.id = currentPage.id then
          { page with
            content := page.content ++ (if page.content ≠ [] then ['\n'] else []) ++ command,
            updated_at := now }
        else page
      let s1 := updateDocument s { doc with pages := updatedPages, updated_at := now }
      some (s1, str "Đã thêm nội dung vào trang " ++ natToStr currentPage.page_number ++ str ": \"" ++ command ++ str "\"")
    | none => none
  | none => none

/-- The keyword chain of the fallback interpreter (page.tsx, lines 751-811),
reached when the direct-content branch does not return. -/
def localCommandChain (command lower : Str) (s : AppState) (now : Nat) :
    AppState × Str :=
  if strIncludes lower (str "tạo") &&
     (strIncludes lower (str "tài liệu") || strIncludes lower (str "mới")) then
    (handleDocumentCreate s, str "Đã tạo tài liệu mới. Hãy nói nội dung bạn muốn thêm.")
  else if strIncludes lower (str "tìm") || strIncludes lower (str "tìm kiếm") then
    let searchTerm := extractSearchTerm command
    if searchTerm ≠ [] then
      ({ s with searchQuery := searchTerm }, str "Đang tìm kiếm: \"" ++ searchTerm ++ str "\"")
    else (s, str "Vui lòng nói rõ từ khóa bạn muốn tìm kiếm.")
  else if strIncludes lower (str "chỉnh sửa") || strIncludes lower (str "sửa") then
    match s.currentDocument with
    | some doc =>
      ({ s with isEditing := true }, str "Đã chuyển sang chế độ chỉnh sửa tài liệu: " ++ doc.title)
    | none => (s, str "Vui lòng chọn một tài liệu để chỉnh sửa.")
  else if strIncludes lower (str "xóa") then
    match s.currentDocument with
    | some doc =>
      (s, str "Bạn có muốn xóa tài liệu \"" ++ doc.title ++ str "\" không? Hãy xác nhận bằng cách nhấn nút xóa.")
    | none => (s, str "Vui lòng chọn một tài liệu để xóa.")
  else if strIncludes lower (str "đọc") || strIncludes lower (str "xem") then
    match s.currentDocument with
    | some doc =>
      match getCurrentPage doc with
      | some currentPage =>
        if currentPage.content ≠ [] then
          (s, str "Đây là nội dung trang " ++ natToStr currentPage.page_number ++ str " của tài liệu \"" ++ doc.title ++ str "\": " ++ currentPage.content)
        else
          (s, str "Trang " ++ natToStr currentPage.page_number ++ str " của tài liệu \"" ++ doc.title ++ str "\" hiện tại đang trống.")
      | none => (s, str "Vui lòng chọn một tài liệu để đọc.")
    | none => (s, str "Vui lòng chọn một tài liệu để đọc.")
  else
    match tryAppendToCurrentPage s command now with
    | some r => r
    | none => (s, str "Tôi đã nhận được lệnh của bạn. Tuy nhiên, tôi chưa thể xử lý lệnh này. Vui lòng thử: \"Tạo tài liệu mới\", \"Tìm kiếm...\", \"Chỉnh sửa\", hoặc \"Đọc tài liệu\".")

/-- `processVoiceCommandLocally` (page.tsx, lines 727-812). -/
def processVoiceCommandLocally (command : Str) (s : AppState) (now : Nat) :
    AppState × Str :=
  let lower := toLowerStr command
  if s.currentDocument.isSome &&
     !strIncludes lower (str "tạo") && !strIncludes lower (str "tìm") &&
     !strIncludes lower (str "chỉnh sửa") && !strIncludes lower (str "xóa") &&
     !strIncludes lower (str "đọc") then
    match tryAppendToCurrentPage s command now with
    | some r => r
    | none => localCommandChain command lower s now
  else localCommandChain command lower s now

/-! ## Silence segmenter

Embedding of the transcript buffers and debounce timer of
`useSpeechRecognition` (src/src/app/layout.tsx, second document:
`resetSilenceTimer`, lines 148-165, and `recognition.onresult`,
lines 196-232).  One `onresult` event carries a batch of results, each
final or interim. -/

/-- Buffers and timer of the silence segmenter:
`finalTranscriptRef`, `interimTranscriptRef`, and whether the silence
timer is armed. -/
structure SegState where
  finalText : Str
  interimText : Str
  armed : Bool
deriving DecidableEq, Repr

/-- Buffer state after `startListening` (layout.tsx, lines 288-295): both
transcripts cleared, no pending timer. -/
def segReset : SegState := ⟨[], [], false⟩

/-- Concatenation of the `isFinal` results of one `onresult` event. -/
def finalsOf (results : List (Str × Bool)) : Str :=
  (results.filterMap fun r => if r.2 then some r.1 else none).flatten

/-- Concatenation of the interim results of one `onresult` event. -/
def interimsOf (results : List (Str × Bool)) : Str :=
  (results.filterMap fun r => if r.2 then none else some r.1).flatten

/-- `recognition.onresult` (layout.tsx, lines 196-232): append the final
part, replace the interim part, and rearm the debounce timer whenever any
speech arrived. -/
def segOnResult (s : SegState) (results : List (Str × Bool)) : SegState :=
  let fin := finalsOf results
  let inter := interimsOf results
  { finalText := if fin ≠ [] then s.finalText ++ fin else s.finalText,
    interimText := if inter ≠ [] then inter else s.interimText,
    armed := if fin ≠ [] ∨ inter ≠ [] then true else s.armed }

/-- Expiry of the silence timer (the `setTimeout` body of
`resetSilenceTimer`, layout.tsx, lines 151-164): emit
`onSilenceDetected(finalText)` when the buffered final text is not blank,
then clear both buffers.  If no timer is armed nothing happens. -/
def segFire (s : SegState) : SegState × Option Str :=
  if s.armed then
    (⟨[], [], false⟩, if trimStr s.finalText ≠ [] then some s.finalText else none)
  else (s, none)

/-- All `isFinal` increments of an episode, in arrival order. -/
def episodeFinals (events : List (List (Str × Bool))) : Str :=
  (events.map finalsOf).flatten

/-- Buffer state at the end of an episode that started from a fresh
listening session. -/
def runEpisode (events : List (List (Str × Bool))) : SegState :=
  events.foldl segOnResult segReset

/-! ## Conversation state machine

Embedding of the `VoiceController` event wiring (src/unnamed/part_002) as a
step function over the events named by the spec: capture start/stop,
playback started/ended/error, finalize (silence detected) and agent reply.
Each handler of the source runs to completion before the next event is
delivered (the browser event loop is single threaded), so one transition
performs everything the handler does, including the short `setTimeout`
continuations it schedules. -/

inductive ConvState where
  | idle | listening | processing | speaking
deriving DecidableEq, Repr

/-- Observable state of the voice controller: the conversation state, and
whether speech capture (`isListening` of `useSpeechRecognition`), speech
playback, or a requested-but-not-yet-started utterance
(`speak` called, `onstart` not yet fired) are live. -/
structure VCState where
  conv : ConvState
  capture : Bool
  playback : Bool
  pendingSpeak : Bool
deriving DecidableEq, Repr

/-- Initial state: nothing running. -/
def vcInit : VCState := ⟨.idle, false, false, false⟩

inductive VCEvent where
  /-- auto-start effect (part_002, lines 270-275), guarded by
  `conversationState === 'idle'`; runs `startListening`. -/
  | autoStart
  /-- `onSilenceDetected` → `handleSilenceDetected t` (part_002, lines 105-126). -/
  | finalize (t : Str)
  /-- the `agentResponse` effect (part_002, lines 243-267), guarded by
  `conversationState === 'processing'`: `stopSTT()` then `speak(...)`. -/
  | agentReply
  /-- the spoken utterance reports started: `utterance.onstart` →
  `onStart` handler (part_002, lines 51-56). -/
  | playbackStarted
  /-- `utterance.onend` → `onEnd` handler (part_002, lines 57-63). -/
  | playbackEnded
  /-- `utterance.onerror` → `onError` handler (part_002, lines 64-79):
  `stopSTT()`, then `startListening()` after a 500 ms delay. -/
  | playbackError
  /-- `stopConversation` (part_002, lines 192-199). -/
  | stopConversation
  /-- STT `onError` (part_002, lines 98-101): back to idle. -/
  | captureError

/-- One step of the conversation event loop.  The second component is the
utterance dispatched to the agent (`onVoiceCommand`), when any. -/
def vcStep (s : VCState) : VCEvent → VCState × Option Str
  | .autoStart =>
    if s.conv = .idle then
      ({ s with conv := .listening, capture := true }, none)
    else (s, none)
  | .finalize t =>
    if trimStr t = [] then (s, none)
    else if s.conv ≠ .listening then (s, none)
    else ({ s with conv := .processing, capture := false }, some t)
  | .agentReply =>
    if s.conv = .processing then
      ({ s with capture := false, pendingSpeak := true }, none)
    else (s, none)
  | .playbackStarted =>
    if s.pendingSpeak then
      ({ conv := .speaking, capture := false, playback := true, pendingSpeak := false }, none)
    else (s, none)
  | .playbackEnded =>
    if s.playback then
      if s.conv = .speaking then
        ({ s with conv := .listening, capture := true, playback := false }, none)
      else ({ s with playback := false }, none)
    else (s, none)
  | .playbackError =>
    if s.playback || s.pendingSpeak then
      ({ conv := .listening, capture := true, playback := false, pendingSpeak := false }, none)
    else (s, none)
  | .stopConversation =>
    (⟨.idle, false, false, false⟩, none)
  | .captureError =>
    if s.capture then
      ({ s with conv := .idle, capture := false }, none)
    else (s, none)

/-- States reachable from the initial state by the event loop. -/
inductive VCReachable : VCState → Prop
  | init : VCReachable vcInit
  | step (s : VCState) (e : VCEvent) : VCReachable s → VCReachable (vcStep s e).1

/-! ## Text-to-speech activation gate

Embedding of the guard chain at the top of `speak`
(src/src/hooks/useWebSpeechTTS.ts, lines 494-514): unsupported synthesis
fails with an availability error, blank text returns silently, and a
locked activation gate fails with the activation-required error; only
after all three checks does the function hand an utterance to
`speechSynthesis.speak`. -/

structure SpeakOutcome where
  /-- whether an utterance was handed to `speechSynthesis.speak`. -/
  playbackRequested : Bool
  /-- the `error` field written into the hook state, when any. -/
  errorState : Option Str
  /-- the message passed to the `onError` callback, when any. -/
  onErrorMsg : Option Str
deriving DecidableEq, Repr

/-- The activation-required error message of the `speak` gate. -/
def activationRequiredMsg : Str :=
  str "Chức năng đọc cần được kích hoạt bằng một cú nhấp hoặc chạm"

/-- Guard chain of `speak` (useWebSpeechTTS.ts, lines 494-514). -/
def speakGate (isSupported isActivated : Bool) (text : Str) : SpeakOutcome :=
  if !isSupported then
    { playbackRequested := false,
      errorState := some (str "Speech synthesis not available"),
      onErrorMsg := some (str "Speech synthesis not available") }
  else if trimStr text = [] then
    { playbackRequested := false, errorState := none, onErrorMsg := none }
  else if !isActivated then
    { playbackRequested := false,
      errorState := some activationRequiredMsg,
      onErrorMsg := some activationRequiredMsg }
  else
    { playbackRequested := true, errorState := none, onErrorMsg := none }

/-! ## Auxiliary predicates and concrete fixtures used by the theorems -/

/-- Inductive invariant of the conversation event loop: capture only runs
while listening, playback only while speaking, and a pending playback
request only exists while processing. -/
def VCInv (s : VCState) : Prop :=
  (s.capture = true → s.conv = .listening) ∧
  (s.playback = true → s.conv = .speaking) ∧
  (s.pendingSpeak = true → s.conv = .processing)

/-- A line that does not begin with any of the three protocol prefixes. -/
def lineClean (l : Str) : Bool :=
  !hasPre l (str "Action:") && !hasPre l (str "Action content:") &&
    !hasPre l (str "Answer:")

/-- No embedded line of the component begins with a protocol prefix
(the hypothesis of the round-trip property). -/
def componentClean (s : Str) : Bool := (splitNl s).all lineClean

/-- Scenario A reply of the spec. -/
def scenarioA : Str :=
  str "Action: add_to_page\nAction content: Hello world\nAnswer: Added."

/-- Scenario B reply of the spec. -/
def scenarioB : Str := str "Action: next_page\nAnswer: Moved to page 2."

/-- A single empty page, as created by `initializeApp`. -/
def pageB : Page :=
  { id := 1, title := [], content := [], page_number := 1,
    created_at := 0, updated_at := 0 }

/-- A one-page document with an empty current page. -/
def docB : Document :=
  { id := 0, title := str "Tài liệu mới", pages := [pageB], current_page := 1,
    created_at := 0, updated_at := 0 }

/-- An application state holding `docB` as the current document. -/
def stateB : AppState :=
  { documents := [docB], currentDocument := some docB, agentResponse := [],
    searchQuery := [], isEditing := false, conversationHistory := [] }

/-! ## Helper lemmas about the string model -/

theorem hasPre_nil (s : Str) : hasPre s [] = true := by
  cases s <;> rfl

theorem hasPre_append (p x : Str) : hasPre (p ++ x) p = true := by
  induction p with
  | nil => simpa using hasPre_nil x
  | cons c cs ih => simp [hasPre, ih]

theorem hasPre_iff (s p : Str) : hasPre s p = true ↔ ∃ v, s = p ++ v := by
  induction p generalizing s with
  | nil => simp [hasPre]
  | cons d ds ih =>
    cases s with
    | nil => simp [hasPre]
    | cons c cs =>
      simp only [hasPre, Bool.and_eq_true, beq_iff_eq, ih, List.cons_append,
        List.cons.injEq]
      constructor
      · rintro ⟨rfl, v, rfl⟩
        exact ⟨v, rfl, rfl⟩
      · rintro ⟨v, rfl, rfl⟩
        exact ⟨rfl, v, rfl⟩

theorem strIncludes_iff (l p : Str) :
    strIncludes l p = true ↔ ∃ u v, l = u ++ p ++ v := by
  induction l with
  | nil =>
    simp only [strIncludes, hasPre_iff]
    constructor
    · rintro ⟨v, hv⟩
      exact ⟨[], v, hv⟩
    · rintro ⟨u, v, huv⟩
      rcases u with _ | ⟨c, u⟩
      · exact ⟨v, huv⟩
      · simp at huv
  | cons c t ih =>
    simp only [strIncludes, Bool.or_eq_true, hasPre_iff, ih]
    constructor
    · rintro (⟨v, hv⟩ | ⟨u, v, huv⟩)
      · exact ⟨[], v, hv⟩
      · exact ⟨c :: u, v, by simp [huv]⟩
    · rintro ⟨u, v, huv⟩
      rcases u with _ | ⟨d, u⟩
      · exact Or.inl ⟨v, huv⟩
      · simp only [List.cons_append, List.cons.injEq] at huv
        exact Or.inr ⟨u, v, huv.2⟩

theorem strIncludes_trans {l n m : Str} (h1 : strIncludes l n = true)
    (h2 : strIncludes n m = true) : strIncludes l m = true := by
  rw [strIncludes_iff] at h1 h2 ⊢
  obtain ⟨u, v, rfl⟩ := h1
  obtain ⟨u2, v2, rfl⟩ := h2
  exact ⟨u ++ u2, v2 ++ v, by simp [List.append_assoc]⟩

theorem ltrim_append (p x : Str) :
    ltrimStr (p ++ x) = if ltrimStr p = [] then ltrimStr x else ltrimStr p ++ x := by
  induction p with
  | nil => simp [ltrimStr]
  | cons c cs ih =>
    by_cases h : isWS c = true
    · simp only [ltrimStr, List.cons_append, List.dropWhile_cons, h, if_true] at ih ⊢
      exact ih
    · simp only [ltrimStr, List.cons_append, List.dropWhile_cons, h] at ih ⊢
      simp

theorem rtrim_append (x q : Str) :
    rtrimStr (x ++ q) = if rtrimStr q = [] then rtrimStr x else x ++ rtrimStr q := by
  have h := ltrim_append q.reverse x.reverse
  unfold ltrimStr at h
  unfold rtrimStr
  rw [List.reverse_append, h]
  by_cases hq : q.reverse.dropWhile isWS = []
  · simp [hq]
  · have hq2 : ¬(q.reverse.dropWhile isWS).reverse = [] := by
      simpa using hq
    simp [hq, hq2]

theorem trim_parts (s : Str) (h : trimStr s = s) :
    ltrimStr s = s ∧ rtrimStr s = s := by
  have hdec : s.takeWhile isWS ++ ltrimStr s = s :=
    List.takeWhile_append_dropWhile isWS s
  have hr : ∀ t : Str, (rtrimStr t).length ≤ t.length := by
    intro t
    have hd : t.reverse.takeWhile isWS ++ t.reverse.dropWhile isWS = t.reverse :=
      List.takeWhile_append_dropWhile isWS t.reverse
    have hlen := congrArg List.length hd
    simp only [List.length_append, List.length_reverse] at hlen
    unfold rtrimStr
    simp only [List.length_reverse]
    omega
  have h3 : (rtrimStr (ltrimStr s)).length = s.length := by
    have : trimStr s = rtrimStr (ltrimStr s) := rfl
    rw [← this, h]
  have h4 : s.length ≤ (ltrimStr s).length := by
    have := hr (ltrimStr s)
    omega
  have h5 : (s.takeWhile isWS).length = 0 := by
    have := congrArg List.length hdec
    simp only [List.length_append] at this
    omega
  have h6 : s.takeWhile isWS = [] := List.eq_nil_of_length_eq_zero h5
  have h7 : ltrimStr s = s := by
    conv_rhs => rw [← hdec, h6]
    simp
  refine ⟨h7, ?_⟩
  have htr : trimStr s = rtrimStr (ltrimStr s) := rfl
  rw [htr, h7] at h
  exact h

theorem splitNl_ne_nil (x : Str) : splitNl x ≠ [] := by
  cases x with
  | nil => simp [splitNl]
  | cons c cs =>
    by_cases h : c = '\n'
    · simp [splitNl, h]
    · simp only [splitNl, h, if_false]
      cases hs : splitNl cs <;> simp

theorem splitNl_no_nl (x : Str) (h : '\n' ∉ x) : splitNl x = [x] := by
  induction x with
  | nil => rfl
  | cons c cs ih =>
    have hc : ¬c = '\n' := fun hh => h (by simp [hh])
    have hcs : '\n' ∉ cs := fun hm => h (List.mem_cons_of_mem _ hm)
    simp [splitNl, hc, ih hcs]

theorem splitNl_append_nl (x y : Str) (h : '\n' ∉ x) :
    splitNl (x ++ '\n' :: y) = x :: splitNl y := by
  induction x with
  | nil => simp [splitNl]
  | cons c cs ih =>
    have hc : ¬c = '\n' := fun hh => h (by simp [hh])
    have hcs : '\n' ∉ cs := fun hm => h (List.mem_cons_of_mem _ hm)
    simp [splitNl, hc, ih hcs]

theorem splitNl_append_head (x y : Str) (h : '\n' ∉ x) :
    splitNl (x ++ y) = (x ++ (splitNl y).headD []) :: (splitNl y).tail := by
  induction x with
  | nil =>
    cases hs : splitNl y with
    | nil => exact absurd hs (splitNl_ne_nil y)
    | cons l ls => simp [hs]
  | cons c cs ih =>
    have hc : ¬c = '\n' := fun hh => h (by simp [hh])
    have hcs : '\n' ∉ cs := fun hm => h (List.mem_cons_of_mem _ hm)
    simp [splitNl, hc, ih hcs]

theorem join_split (x : Str) : joinNl (splitNl x) = x := by
  induction x with
  | nil => rfl
  | cons c cs ih =>
    by_cases hc : c = '\n'
    · subst hc
      simp only [splitNl, if_true]
      cases hs : splitNl cs with
      | nil => exact absurd hs (splitNl_ne_nil cs)
      | cons l ls =>
        rw [hs] at ih
        simp [joinNl, ih]
    · simp only [splitNl, hc, if_false]
      cases hs : splitNl cs with
      | nil => exact absurd hs (splitNl_ne_nil cs)
      | cons l ls =>
        rw [hs] at ih
        cases ls with
        | nil => simp [joinNl] at ih ⊢; rw [ih]
        | cons l2 ls2 => simp [joinNl] at ih ⊢; rw [ih]

theorem split_join (L : List Str) (h0 : L ≠ []) (h : ∀ l ∈ L, '\n' ∉ l) :
    splitNl (joinNl L) = L := by
  induction L with
  | nil => cases h0 rfl
  | cons x xs ih =>
    cases xs with
    | nil => simp [joinNl, splitNl_no_nl x (h x (by simp))]
    | cons y ys =>
      have he : joinNl (x :: y :: ys) = x ++ '\n' :: joinNl (y :: ys) := rfl
      rw [he, splitNl_append_nl x _ (h x (by simp)),
        ih (by simp) fun l hl => h l (List.mem_cons_of_mem _ hl)]

theorem joinNl_cons_append (p l : Str) (ls : List Str) :
    joinNl ((p ++ l) :: ls) = p ++ joinNl (l :: ls) := by
  cases ls with
  | nil => rfl
  | cons y ys => simp [joinNl]

theorem splitNl_join_append (L : List Str) (y : Str) (h0 : L ≠ [])
    (h : ∀ l ∈ L, '\n' ∉ l) :
    splitNl (joinNl L ++ '\n' :: y) = L ++ splitNl y := by
  induction L with
  | nil => cases h0 rfl
  | cons x xs ih =>
    cases xs with
    | nil =>
      simp only [joinNl]
      rw [splitNl_append_nl x y (h x (by simp))]
      rfl
    | cons x2 xs2 =>
      have he : joinNl (x :: x2 :: xs2) ++ '\n' :: y =
          x ++ '\n' :: (joinNl (x2 :: xs2) ++ '\n' :: y) := by
        simp [joinNl]
      rw [he, splitNl_append_nl x _ (h x (by simp)),
        ih (by simp) fun l hl => h l (List.mem_cons_of_mem _ hl)]
      rfl

/-! ## Conversation machine invariant -/

theorem vcInv_init : VCInv vcInit := by
  simp [VCInv, vcInit]

theorem vcInv_step (s : VCState) (e : VCEvent) (h : VCInv s) :
    VCInv (vcStep s e).1 := by
  obtain ⟨h1, h2, h3⟩ := h
  cases e <;> simp only [vcStep] <;> (repeat' split) <;>
    simp_all [VCInv]

theorem vcInv_reachable (s : VCState) (h : VCReachable s) : VCInv s := by
  induction h with
  | init => exact vcInv_init
  | step s e _ ih => exact vcInv_step s e ih

/-- Claim C2: in every reachable state of the conversation event loop,
speech capture and speech playback are never simultaneously active, and
whenever a playback start is still pending (so a `playbackStarted` event can
fire next), capture has already been stopped. -/
theorem c2_capture_playback_exclusion (s : VCState) (h : VCReachable s) :
    ¬(s.capture = true ∧ s.playback = true) ∧
      (s.pendingSpeak = true → s.capture = false) := by
  obtain ⟨h1, h2, h3⟩ := vcInv_reachable s h
  constructor
  · rintro ⟨hc, hp⟩
    have e1 := h1 hc
    have e2 := h2 hp
    rw [e1] at e2
    cases e2
  · intro hp
    cases hcap : s.capture
    · rfl
    · have e1 := h1 hcap
      have e3 := h3 hp
      rw [e1] at e3
      cases e3

/-- Witness for C2 at a concrete reachable state: after auto-start,
finalize and agent reply, playback is pending and capture is off. -/
theorem c2_capture_playback_exclusion_witness :
    ¬((vcStep (vcStep (vcStep vcInit .autoStart).1 (.finalize (str "xin chào"))).1
        .agentReply).1.capture = true ∧
      (vcStep (vcStep (vcStep vcInit .autoStart).1 (.finalize (str "xin chào"))).1
        .agentReply).1.playback = true) ∧
      ((vcStep (vcStep (vcStep vcInit .autoStart).1 (.finalize (str "xin chào"))).1
        .agentReply).1.pendingSpeak = true →
       (vcStep (vcStep (vcStep vcInit .autoStart).1 (.finalize (str "xin chào"))).1
        .agentReply).1.capture = false) :=
  c2_capture_playback_exclusion _
    (VCReachable.step _ .agentReply
      (VCReachable.step _ (.finalize (str "xin chào"))
        (VCReachable.step _ .autoStart VCReachable.init)))

/-- Claim C3: a finalize (silence-detected) event is a complete no-op unless
the machine is listening and the transcript is not blank; the utterance is
dispatched to the agent exactly in that case, and then the machine moves to
processing with capture stopped. -/
theorem c3_finalize_guard (s : VCState) (t : Str) :
    (trimStr t = [] ∨ s.conv ≠ .listening → vcStep s (.finalize t) = (s, none)) ∧
    ((vcStep s (.finalize t)).2 = some t ↔ s.conv = .listening ∧ trimStr t ≠ []) ∧
    (s.conv = .listening → trimStr t ≠ [] →
      vcStep s (.finalize t) = ({ s with conv := .processing, capture := false }, some t)) := by
  refine ⟨?_, ?_, ?_⟩
  · rintro (hb | hs)
    · simp [vcStep, hb]
    · by_cases hb : trimStr t = [] <;> simp [vcStep, hb, hs]
  · by_cases hb : trimStr t = []
    · simp [vcStep, hb]
    · by_cases hs : s.conv = .listening <;> simp [vcStep, hb, hs]
  · intro hs hb
    simp [vcStep, hb, hs]

/-- Witness for C3: blank transcript and wrong state are no-ops, a real
utterance in the listening state is dispatched. -/
theorem c3_finalize_guard_witness :
    vcStep ⟨.listening, true, false, false⟩ (.finalize (str "  ")) =
      (⟨.listening, true, false, false⟩, none) ∧
    vcStep ⟨.processing, false, false, false⟩ (.finalize (str "xin chào")) =
      (⟨.processing, false, false, false⟩, none) ∧
    vcStep ⟨.listening, true, false, false⟩ (.finalize (str "xin chào")) =
      (⟨.processing, false, false, false⟩, some (str "xin chào")) :=
  ⟨(c3_finalize_guard ⟨.listening, true, false, false⟩ (str "  ")).1
      (Or.inl (by decide)),
   (c3_finalize_guard ⟨.processing, false, false, false⟩ (str "xin chào")).1
      (Or.inr (by decide)),
   (c3_finalize_guard ⟨.listening, true, false, false⟩ (str "xin chào")).2.2
      rfl (by decide)⟩

/-- Claim C7: the conversation history never exceeds 20 entries; appending
the user and assistant entries of a completed turn keeps the bound, keeps
exactly the most recent entries (the result is a suffix of the appended
list) and drops the oldest entries first. -/
theorem c7_history_bound (prev : List ChatMsg) (u a : ChatMsg)
    (h : prev.length ≤ 20) :
    (appendTurn prev u a).length ≤ 20 ∧
    (appendTurn prev u a).length = min (prev.length + 2) 20 ∧
    (appendTurn prev u a) <:+ prev ++ [u, a] := by
  unfold appendTurn manageConversationHistory
  by_cases h20 : 20 < (prev ++ [u, a]).length
  · have hl : (prev ++ [u, a]).length = prev.length + 2 := by simp
    rw [if_pos h20]
    refine ⟨?_, ?_, List.drop_suffix _ _⟩
    · rw [List.length_drop]
      omega
    · rw [List.length_drop]
      omega
  · have hl : (prev ++ [u, a]).length = prev.length + 2 := by simp
    rw [if_neg h20]
    refine ⟨by omega, by omega, List.suffix_refl _⟩

/-- Witness for C7 with a full history of 20 entries. -/
theorem c7_history_bound_witness :
    (appendTurn (List.replicate 20 ⟨str "user", str "x"⟩)
        ⟨str "user", str "u"⟩ ⟨str "assistant", str "a"⟩).length ≤ 20 ∧
    (appendTurn (List.replicate 20 ⟨str "user", str "x"⟩)
        ⟨str "user", str "u"⟩ ⟨str "assistant", str "a"⟩).length =
      min ((List.replicate 20 (⟨str "user", str "x"⟩ : ChatMsg)).length + 2) 20 ∧
    (appendTurn (List.replicate 20 ⟨str "user", str "x"⟩)
        ⟨str "user", str "u"⟩ ⟨str "assistant", str "a"⟩) <:+
      List.replicate 20 ⟨str "user", str "x"⟩ ++ [⟨str "user", str "u"⟩, ⟨str "assistant", str "a"⟩] :=
  c7_history_bound (List.replicate 20 ⟨str "user", str "x"⟩)
    ⟨str "user", str "u"⟩ ⟨str "assistant", str "a"⟩ (by simp)

/-- Claim C8 counterexample: a `speak` call with blank text while the
activation flag is false returns silently; no activation-required error is
reported through the error state or the `onError` callback, contrary to the
claim's "for every text input". -/
theorem c8_speak_gate_counterexample :
    speakGate true false (str " ") =
      { playbackRequested := false, errorState := none, onErrorMsg := none } := by
  decide

/-- Claim C8 (amended): for every text whose trimmed form is non-empty, a
`speak` call made while the activation flag is false (with synthesis
supported) requests no playback and reports the activation-required error
through both the error state and the `onError` callback. -/
theorem c8_speak_gate (text : Str) (h : trimStr text ≠ []) :
    speakGate true false text =
      { playbackRequested := false,
        errorState := some activationRequiredMsg,
        onErrorMsg := some activationRequiredMsg } := by
  simp [speakGate, h]

/-- Witness for C8 at a concrete non-blank text. -/
theorem c8_speak_gate_witness :
    speakGate true false (str "Xin chào") =
      { playbackRequested := false,
        errorState := some activationRequiredMsg,
        onErrorMsg := some activationRequiredMsg } :=
  c8_speak_gate (str "Xin chào") (by decide)

/-! ## Claims C9, C1 and C5: the action dispatcher -/

/-- Claim C9: `next_page` and `prev_page` touch only `current_page`; the
pages (with their contents, titles, numbers and timestamps), the document
title, id and both document timestamps are unchanged, and `current_page`
stays within `1..pages.length`. -/
theorem c9_page_nav_frame (s : AppState) (doc : Document) (c a : Str)
    (now dId pId : Nat) (hdoc : s.currentDocument = some doc)
    (h1 : 1 ≤ doc.current_page) (h2 : doc.current_page ≤ doc.pages.length) :
    (∃ d1, (processNewAgentAction (str "next_page") c a s now dId pId).currentDocument = some d1 ∧
      d1.id = doc.id ∧ d1.title = doc.title ∧ d1.pages = doc.pages ∧
      d1.created_at = doc.created_at ∧ d1.updated_at = doc.updated_at ∧
      1 ≤ d1.current_page ∧ d1.current_page ≤ d1.pages.length) ∧
    (∃ d2, (processNewAgentAction (str "prev_page") c a s now dId pId).currentDocument = some d2 ∧
      d2.id = doc.id ∧ d2.title = doc.title ∧ d2.pages = doc.pages ∧
      d2.created_at = doc.created_at ∧ d2.updated_at = doc.updated_at ∧
      1 ≤ d2.current_page ∧ d2.current_page ≤ d2.pages.length) := by
  have hcn : classifyAction (str "next_page") = .nextPage := by decide
  have hcp : classifyAction (str "prev_page") = .prevPage := by decide
  constructor
  · simp only [processNewAgentAction, hcn, hdoc]
    by_cases hlt : doc.current_page < doc.pages.length
    · rw [if_pos hlt]
      refine ⟨{ doc with current_page := doc.current_page + 1 },
        by simp [updateDocument], rfl, rfl, rfl, rfl, rfl,
        by show 1 ≤ doc.current_page + 1; omega,
        by show doc.current_page + 1 ≤ doc.pages.length; omega⟩
    · rw [if_neg hlt]
      exact ⟨doc, by simp [hdoc], rfl, rfl, rfl, rfl, rfl, h1, h2⟩
  · simp only [processNewAgentAction, hcp, hdoc]
    by_cases hgt : 1 < doc.current_page
    · rw [if_pos hgt]
      refine ⟨{ doc with current_page := doc.current_page - 1 },
        by simp [updateDocument], rfl, rfl, rfl, rfl, rfl,
        by show 1 ≤ doc.current_page - 1; omega,
        by show doc.current_page - 1 ≤ doc.pages.length; omega⟩
    · rw [if_neg hgt]
      exact ⟨doc, by simp [hdoc], rfl, rfl, rfl, rfl, rfl, h1, h2⟩

/-- Witness for C9 on the one-page fixture document. -/
theorem c9_page_nav_frame_witness :
    (∃ d1, (processNewAgentAction (str "next_page") [] [] stateB 0 0 0).currentDocument = some d1 ∧
      d1.id = docB.id ∧ d1.title = docB.title ∧ d1.pages = docB.pages ∧
      d1.created_at = docB.created_at ∧ d1.updated_at = docB.updated_at ∧
      1 ≤ d1.current_page ∧ d1.current_page ≤ d1.pages.length) ∧
    (∃ d2, (processNewAgentAction (str "prev_page") [] [] stateB 0 0 0).currentDocument = some d2 ∧
      d2.id = docB.id ∧ d2.title = docB.title ∧ d2.pages = docB.pages ∧
      d2.created_at = docB.created_at ∧ d2.updated_at = docB.updated_at ∧
      1 ≤ d2.current_page ∧ d2.current_page ≤ d2.pages.length) :=
  c9_page_nav_frame stateB docB [] [] 0 0 0 rfl (by decide) (by decide)

/-- Outer parser loop without any `Action content:` line: both the action
content and the answer come out empty. -/
theorem parseScan_no_ac (ls : List Str) (acc : Str)
    (h : ∀ l ∈ ls, hasPre (trimStr l) (str "Action content:") = false) :
    (parseScan ls acc).2.1 = [] ∧ (parseScan ls acc).2.2 = [] := by
  induction ls generalizing acc with
  | nil => simp [parseScan]
  | cons l ls ih =>
    have hl := h l (by simp)
    have hrest : ∀ x ∈ ls, hasPre (trimStr x) (str "Action content:") = false :=
      fun x hx => h x (by simp [hx])
    by_cases ha : hasPre (trimStr l) (str "Action:") = true
    · simp only [parseScan, ha, if_true]
      exact ih _ hrest
    · simp only [parseScan, Bool.not_eq_true] at ha
      simp only [parseScan, ha, hl, Bool.false_eq_true, if_false]
      exact ih _ hrest

/-- Claim C1 (amended): when the reply has no `Action content:` line the
parser leaves **both** the action content and the answer empty (the
`Answer:` line is only consumed inside the content-collection loop), so
dispatch runs with an empty answer and speaks the action's default message;
in Scenario B the document is untouched and the spoken response is the
default last-page message, not the agent-provided answer. -/
theorem c1_missing_action_content :
    (∀ r : Str,
      (∀ l ∈ splitNl (trimStr r), hasPre (trimStr l) (str "Action content:") = false) →
      (parseReply r).2.1 = [] ∧ (parseReply r).2.2 = []) ∧
    (∀ (s : AppState) (doc : Document) (now dId pId : Nat),
      s.currentDocument = some doc → doc.pages.length = 1 → doc.current_page = 1 →
      parseAndProcessAgentResponse scenarioB s now dId pId =
        { s with agentResponse := str "Đây là trang cuối cùng." }) := by
  constructor
  · intro r h
    exact parseScan_no_ac _ _ h
  · intro s doc now dId pId hdoc hlen hcp
    have hp : parseReply scenarioB = (str "next_page", [], []) := by decide
    have hcn : classifyAction (str "next_page") = .nextPage := by decide
    simp only [parseAndProcessAgentResponse, hp]
    rw [if_pos (by decide : ¬(str "next_page", ([] : Str), ([] : Str)).1 = [])]
    simp only [processNewAgentAction, hcn, hdoc]
    rw [hcp, hlen]
    rw [if_neg (by decide : ¬(1 : Nat) < 1)]
    simp [jsOr]

/-- Witness for C1: Scenario B itself satisfies the no-content-line
hypothesis, and dispatching it on the fixture state keeps the document and
speaks the default message. -/
theorem c1_missing_action_content_witness :
    ((parseReply scenarioB).2.1 = [] ∧ (parseReply scenarioB).2.2 = []) ∧
    parseAndProcessAgentResponse scenarioB stateB 0 0 0 =
      { stateB with agentResponse := str "Đây là trang cuối cùng." } :=
  ⟨c1_missing_action_content.1 scenarioB (by decide),
   c1_missing_action_content.2 stateB docB 0 0 0 rfl (by decide) (by decide)⟩

/-- Claim C1 counterexample (to the claim as stated): for Scenario B the
parsed answer is empty and the spoken response is the default last-page
message, not the agent-provided `"Moved to page 2."`. -/
theorem c1_scenario_b_counterexample :
    (parseReply scenarioB).2.2 = [] ∧
    (parseAndProcessAgentResponse scenarioB stateB 0 0 0).currentDocument = some docB ∧
    (parseAndProcessAgentResponse scenarioB stateB 0 0 0).agentResponse =
      str "Đây là trang cuối cùng." ∧
    ¬(parseAndProcessAgentResponse scenarioB stateB 0 0 0).agentResponse =
      str "Moved to page 2." := by
  decide

/-- `find?` only depends on the pointwise behaviour of the predicate. -/
theorem find?_congr_bool {α : Type} (p q : α → Bool) (l : List α)
    (h : ∀ x ∈ l, p x = q x) : l.find? p = l.find? q := by
  induction l with
  | nil => rfl
  | cons a t ih =>
    have ha : p a = q a := h a (by simp)
    have ht := ih fun x hx => h x (by simp [hx])
    cases hqa : q a <;> simp [List.find?, ha, hqa, ht]

/-- `find?` after `map`. -/
theorem find?_map_comp {α β : Type} (f : α → β) (p : β → Bool) (l : List α) :
    (l.map f).find? p = (l.find? fun x => p (f x)).map f := by
  induction l with
  | nil => rfl
  | cons a t ih => cases h : p (f a) <;> simp [List.find?, h, ih]

/-- Mapping a page transformation that preserves page numbers over the pages
list maps the found current page. -/
theorem getCurrentPage_map (pages : List Page) (cp : Nat) (g : Page → Page)
    (hg : ∀ p, (g p).page_number = p.page_number) (pg : Page)
    (h : pages.find? (fun page => page.page_number == cp) = some pg) :
    (pages.map g).find? (fun page => page.page_number == cp) = some (g pg) := by
  rw [find?_map_comp, find?_congr_bool _ (fun page => page.page_number == cp) pages
    (fun x _ => by rw [hg]), h]
  rfl

/-- The JavaScript fallback `a || b` keeps a non-empty `a`. -/
theorem jsOr_ne (a b : Str) (h : ¬a = []) : jsOr a b = a := by
  unfold jsOr
  rw [if_neg h]

/-- Claim C5: Scenario A parses to
`(add_to_page, "Hello world", "Added.")`; dispatched on a state whose
current page is empty, the current page content becomes `"Hello world"` and
the spoken response is the agent answer `"Added."`. -/
theorem c5_scenario_a (s : AppState) (doc : Document) (pg : Page)
    (now dId pId : Nat) (hdoc : s.currentDocument = some doc)
    (hpg : getCurrentPage doc = some pg) (hempty : pg.content = []) :
    parseReply scenarioA = (str "add_to_page", str "Hello world", str "Added.") ∧
    (parseAndProcessAgentResponse scenarioA s now dId pId).agentResponse = str "Added." ∧
    ∃ doc1 pg1,
      (parseAndProcessAgentResponse scenarioA s now dId pId).currentDocument = some doc1 ∧
      getCurrentPage doc1 = some pg1 ∧ pg1.content = str "Hello world" := by
  have hp : parseReply scenarioA = (str "add_to_page", str "Hello world", str "Added.") := by
    decide
  have hcl : classifyAction (str "add_to_page") = .addToPage := by decide
  have hj : ∀ b, jsOr (str "Added.") b = str "Added." :=
    fun b => jsOr_ne _ b (by decide)
  refine ⟨hp, ?_⟩
  simp only [parseAndProcessAgentResponse, hp]
  rw [if_pos (by decide : ¬(str "add_to_page", str "Hello world", str "Added.").1 = [])]
  simp only [processNewAgentAction, hcl, hdoc, hpg]
  constructor
  · simp [updateDocument, hj]
  · refine ⟨_,
      { pg with
        content := pg.content ++ (if pg.content ≠ [] then ['\n'] else []) ++ str "Hello world",
        updated_at := now }, rfl, ?_, ?_⟩
    · unfold getCurrentPage
      have h2 := getCurrentPage_map doc.pages doc.current_page
        (fun page =>
          if page.id = pg.id then
            { page with
              content := page.content ++ (if page.content ≠ [] then ['\n'] else []) ++
                str "Hello world",
              updated_at := now }
          else page)
        (fun p => by by_cases hpp : p.id = pg.id <;> simp [hpp]) pg hpg
      simpa using h2
    · simp [hempty]

/-- Witness for C5 on the fixture state with an empty current page. -/
theorem c5_scenario_a_witness :
    parseReply scenarioA = (str "add_to_page", str "Hello world", str "Added.") ∧
    (parseAndProcessAgentResponse scenarioA stateB 0 0 0).agentResponse = str "Added." ∧
    ∃ doc1 pg1,
      (parseAndProcessAgentResponse scenarioA stateB 0 0 0).currentDocument = some doc1 ∧
      getCurrentPage doc1 = some pg1 ∧ pg1.content = str "Hello world" :=
  c5_scenario_a stateB docB pageB 0 0 0 rfl (by decide) rfl

/-! ## Claim C4: the silence segmenter -/

/-- One `onresult` event appends exactly its final increments to the final
buffer. -/
theorem segOnResult_final (s : SegState) (e : List (Str × Bool)) :
    (segOnResult s e).finalText = s.finalText ++ finalsOf e := by
  by_cases h : finalsOf e = []
  · simp [segOnResult, h]
  · simp [segOnResult, h]

/-- The final buffer of an episode is the concatenation, in arrival order,
of all final increments. -/
theorem foldl_final (evs : List (List (Str × Bool))) :
    ∀ s : SegState, (evs.foldl segOnResult s).finalText = s.finalText ++ episodeFinals evs := by
  induction evs with
  | nil => intro s; simp [episodeFinals]
  | cons e evs ih =>
    intro s
    simp only [List.foldl_cons]
    rw [ih, segOnResult_final]
    simp [episodeFinals]

theorem runEpisode_final (evs : List (List (Str × Bool))) :
    (runEpisode evs).finalText = episodeFinals evs := by
  unfold runEpisode
  rw [foldl_final]
  rfl

/-- Claim C4 (amended): when the quiet-period timer armed by the episode
fires, the segmenter emits one finalize event carrying the concatenation of
all `isFinal` increments **provided that concatenation is not blank** (a
blank accumulation emits nothing); both buffers are cleared and the timer
disarmed either way, so a further timer expiry emits nothing. -/
theorem c4_segmenter (evs : List (List (Str × Bool)))
    (h : (runEpisode evs).armed = true) :
    segFire (runEpisode evs) =
      (segReset,
        if trimStr (episodeFinals evs) ≠ [] then some (episodeFinals evs) else none) ∧
    segFire (segFire (runEpisode evs)).1 = (segReset, none) := by
  have hf : (runEpisode evs).finalText = episodeFinals evs := runEpisode_final evs
  have h1 : segFire (runEpisode evs) =
      (segReset,
        if trimStr (episodeFinals evs) ≠ [] then some (episodeFinals evs) else none) := by
    unfold segFire
    rw [if_pos h, hf]
    rfl
  refine ⟨h1, ?_⟩
  rw [h1]
  rfl

/-- Witness for C4 with two final increments. -/
theorem c4_segmenter_witness :
    segFire (runEpisode [[(str "xin ", true)], [(str "chào", true)]]) =
      (segReset,
        if trimStr (episodeFinals [[(str "xin ", true)], [(str "chào", true)]]) ≠ []
        then some (episodeFinals [[(str "xin ", true)], [(str "chào", true)]]) else none) ∧
    segFire (segFire (runEpisode [[(str "xin ", true)], [(str "chào", true)]])).1 =
      (segReset, none) :=
  c4_segmenter [[(str "xin ", true)], [(str "chào", true)]] (by decide)

/-- Claim C4 counterexample (to the claim as stated): an episode with a
single whitespace-only final increment arms the timer, yet the firing timer
emits no finalize event at all, where the claim demands exactly one event
carrying the concatenation. -/
theorem c4_blank_final_counterexample :
    episodeFinals [[(str " ", true)]] = str " " ∧
    (runEpisode [[(str " ", true)]]).armed = true ∧
    (segFire (runEpisode [[(str " ", true)]])).2 = none := by
  decide

/-! ## Claim C10: the local fallback interpreter -/

theorem tryAppend_docs_len (s : AppState) (command : Str) (now : Nat)
    (r : AppState × Str) (h : tryAppendToCurrentPage s command now = some r) :
    r.1.documents.length = s.documents.length := by
  unfold tryAppendToCurrentPage at h
  cases hd : s.currentDocument with
  | none =>
    simp only [hd] at h
    exact Option.noConfusion h
  | some doc =>
    simp only [hd] at h
    cases hp : getCurrentPage doc with
    | none =>
      simp only [hp] at h
      exact Option.noConfusion h
    | some pg =>
      simp only [hp, Option.some.injEq] at h
      subst h
      simp [updateDocument]

theorem chain_docs_len (command lower : Str) (s : AppState) (now : Nat) :
    (localCommandChain command lower s now).1.documents.length = s.documents.length := by
  cases ht : tryAppendToCurrentPage s command now with
  | none =>
    unfold localCommandChain
    rw [ht]
    repeat' split
    all_goals try simp [handleDocumentCreate]
    all_goals try (repeat' split <;> simp [handleDocumentCreate])
    all_goals simp_all [handleDocumentCreate]
  | some r =>
    have hr := tryAppend_docs_len s command now r ht
    unfold localCommandChain
    rw [ht]
    repeat' split
    all_goals try simp [handleDocumentCreate, hr]
    all_goals try (repeat' split <;> simp [handleDocumentCreate, hr])
    all_goals simp_all [handleDocumentCreate, hr]

/-- Replacing the document with a matching id by one with the same page
count keeps every document's page count. -/
theorem map_len_update (docs : List Document) (d : Document) (i : Nat)
    (h : ∀ x ∈ docs, x.id = i → x.pages.length = d.pages.length) :
    ((docs.map fun x => if x.id = i then d else x).map fun x => x.pages.length) =
      docs.map fun x => x.pages.length := by
  induction docs with
  | nil => rfl
  | cons y ys ih =>
    have hy := h y (by simp)
    have ihr := ih fun x hx hxid => h x (by simp [hx]) hxid
    by_cases hyid : y.id = i
    · simp [hyid, ihr, hy hyid]
    · simp [hyid, ihr]

/-- The append-to-current-page block only extends the current page's
content: under the page-count agreement between the current document and
its entry in the list, every document keeps its page count. -/
theorem tryAppend_pages_len (s : AppState) (command : Str) (now : Nat)
    (r : AppState × Str)
    (hsync : ∀ doc, s.currentDocument = some doc →
      ∀ x ∈ s.documents, x.id = doc.id → x.pages.length = doc.pages.length)
    (h : tryAppendToCurrentPage s command now = some r) :
    r.1.documents.map (fun d => d.pages.length) =
      s.documents.map (fun d => d.pages.length) := by
  unfold tryAppendToCurrentPage at h
  cases hd : s.currentDocument with
  | none =>
    simp only [hd] at h
    exact Option.noConfusion h
  | some doc =>
    simp only [hd] at h
    cases hp : getCurrentPage doc with
    | none =>
      simp only [hp] at h
      exact Option.noConfusion h
    | some pg =>
      simp only [hp, Option.some.injEq] at h
      subst h
      simp only [updateDocument]
      refine map_len_update s.documents _ doc.id ?_
      intro x hx hid
      have hlen := hsync doc hd x hx hid
      simpa [List.length_map] using hlen

/-- No branch of the keyword chain removes a page from any document. -/
theorem chain_pages_len (command lower : Str) (s : AppState) (now : Nat)
    (hsync : ∀ doc, s.currentDocument = some doc →
      ∀ x ∈ s.documents, x.id = doc.id → x.pages.length = doc.pages.length) :
    (localCommandChain command lower s now).1.documents.map (fun d => d.pages.length) =
      s.documents.map (fun d => d.pages.length) := by
  cases ht : tryAppendToCurrentPage s command now with
  | none =>
    unfold localCommandChain
    rw [ht]
    repeat' split
    all_goals try simp [handleDocumentCreate]
    all_goals try (repeat' split <;> simp [handleDocumentCreate])
    all_goals simp_all [handleDocumentCreate]
  | some r =>
    have hr := tryAppend_pages_len s command now r hsync ht
    unfold localCommandChain
    rw [ht]
    repeat' split
    all_goals try simp [handleDocumentCreate, hr]
    all_goals try (repeat' split <;> simp [handleDocumentCreate, hr])
    all_goals simp_all [handleDocumentCreate, hr]

/-- Claim C10 (amended): the fallback interpreter never deletes a document
or a page for any input utterance: the documents list keeps its length, and
whenever the current document agrees with its entry in the documents list
on page count (the agreement the app maintains), every document also keeps
its page count; and for every utterance whose lowercase form contains the
delete keyword but triggers no earlier branch (create, search, edit), it
returns only the spoken confirmation request (or the select-a-document
prompt) and leaves the whole application state unchanged. -/
theorem c10_fallback_no_delete :
    (∀ (command : Str) (s : AppState) (now : Nat),
      (processVoiceCommandLocally command s now).1.documents.length = s.documents.length) ∧
    (∀ (command : Str) (s : AppState) (now : Nat),
      (∀ doc, s.currentDocument = some doc →
        ∀ x ∈ s.documents, x.id = doc.id → x.pages.length = doc.pages.length) →
      (processVoiceCommandLocally command s now).1.documents.map (fun d => d.pages.length) =
        s.documents.map (fun d => d.pages.length)) ∧
    (∀ (command : Str) (s : AppState) (now : Nat),
      strIncludes (toLowerStr command) (str "xóa") = true →
      (strIncludes (toLowerStr command) (str "tạo") &&
        (strIncludes (toLowerStr command) (str "tài liệu") ||
         strIncludes (toLowerStr command) (str "mới"))) = false →
      strIncludes (toLowerStr command) (str "tìm") = false →
      strIncludes (toLowerStr command) (str "sửa") = false →
      processVoiceCommandLocally command s now =
        (s, match s.currentDocument with
            | some doc => str "Bạn có muốn xóa tài liệu \"" ++ doc.title ++
                str "\" không? Hãy xác nhận bằng cách nhấn nút xóa."
            | none => str "Vui lòng chọn một tài liệu để xóa.")) := by
  refine ⟨?_, ?_, ?_⟩
  · intro command s now
    have hc := chain_docs_len command (toLowerStr command) s now
    simp only [processVoiceCommandLocally]
    split
    · cases ht : tryAppendToCurrentPage s command now with
      | none =>
        simp only [ht]
        exact hc
      | some r =>
        simp only [ht]
        exact tryAppend_docs_len s command now r ht
    · exact hc
  · intro command s now hsync
    have hc := chain_pages_len command (toLowerStr command) s now hsync
    simp only [processVoiceCommandLocally]
    split
    · cases ht : tryAppendToCurrentPage s command now with
      | none =>
        simp only [ht]
        exact hc
      | some r =>
        simp only [ht]
        exact tryAppend_pages_len s command now r hsync ht
    · exact hc
  · intro command s now hx hcreate hfind hsua
    have hkiem : strIncludes (toLowerStr command) (str "tìm kiếm") = false := by
      cases h : strIncludes (toLowerStr command) (str "tìm kiếm")
      · rfl
      · have htr := strIncludes_trans h
          (by decide : strIncludes (str "tìm kiếm") (str "tìm") = true)
        rw [htr] at hfind
        cases hfind
    have hchinh : strIncludes (toLowerStr command) (str "chỉnh sửa") = false := by
      cases h : strIncludes (toLowerStr command) (str "chỉnh sửa")
      · rfl
      · have htr := strIncludes_trans h
          (by decide : strIncludes (str "chỉnh sửa") (str "sửa") = true)
        rw [htr] at hsua
        cases hsua
    simp only [processVoiceCommandLocally, localCommandChain, hx, hcreate, hfind,
      hkiem, hchinh, hsua, Bool.not_true, Bool.and_false, Bool.false_and,
      Bool.and_true, Bool.or_self, Bool.or_false, Bool.false_or,
      Bool.false_eq_true, if_false, if_true, ite_false, ite_true]
    cases hd : s.currentDocument <;> simp [hd]

/-- Witness for C10: a plain delete utterance on the fixture state is a
pure confirmation request, and a dictation utterance preserves the page
counts of every document. -/
theorem c10_fallback_no_delete_witness :
    processVoiceCommandLocally (str "xóa tài liệu này") stateB 0 =
      (stateB, str "Bạn có muốn xóa tài liệu \"" ++ docB.title ++
        str "\" không? Hãy xác nhận bằng cách nhấn nút xóa.") ∧
    (processVoiceCommandLocally (str "ghi chú") stateB 0).1.documents.map
        (fun d => d.pages.length) =
      stateB.documents.map (fun d => d.pages.length) :=
  ⟨c10_fallback_no_delete.2.2 (str "xóa tài liệu này") stateB 0
      (by decide) (by decide) (by decide) (by decide),
   c10_fallback_no_delete.2.1 (str "ghi chú") stateB 0
      (by intro doc hdoc; injection hdoc with h; subst h; decide)⟩

/-- Claim C10 counterexample (to the claim as stated): the utterance
`"tạo mới xóa"` contains the delete keyword, yet the create branch runs
first and clears the current document, so the current document is not left
unchanged and the response is not a delete confirmation request. -/
theorem c10_create_keyword_counterexample :
    strIncludes (toLowerStr (str "tạo mới xóa")) (str "xóa") = true ∧
    (processVoiceCommandLocally (str "tạo mới xóa") stateB 0).1.currentDocument = none ∧
    ¬(processVoiceCommandLocally (str "tạo mới xóa") stateB 0).1.currentDocument =
      stateB.currentDocument := by
  decide

/-! ## Claim C6: protocol round trip -/

/-- Trimming a string that starts with a trimmed non-empty prefix. -/
theorem trim_pref_append (p x : Str) (hp1 : ltrimStr p = p) (hp2 : ¬p = [])
    (hx : rtrimStr x = x) :
    trimStr (p ++ x) = if x = [] then rtrimStr p else p ++ x := by
  unfold trimStr
  rw [ltrim_append, hp1, if_neg hp2, rtrim_append, hx]

/-- A kept prefix survives trimming. -/
theorem hasPre_trim_pref (p x : Str) (hp1 : ltrimStr p = p) (hp2 : ¬p = [])
    (hp3 : rtrimStr p = p) : hasPre (trimStr (p ++ x)) p = true := by
  unfold trimStr
  rw [ltrim_append, hp1, if_neg hp2, rtrim_append]
  by_cases hx : rtrimStr x = []
  · rw [if_pos hx, hp3]
    simpa using hasPre_append p []
  · rw [if_neg hx]
    exact hasPre_append p (rtrimStr x)

/-- A leading space disappears under trimming. -/
theorem trim_space (x : Str) : trimStr (' ' :: x) = trimStr x := by
  unfold trimStr ltrimStr
  rw [List.dropWhile_cons, if_pos (by decide : isWS ' ' = true)]

theorem ac_not_action (x : Str) :
    hasPre (str "Action content:" ++ x) (str "Action:") = false := rfl

theorem ac_not_answer (x : Str) :
    hasPre (str "Action content:" ++ x) (str "Answer:") = false := rfl

/-- Content lines that are trimmed and not answer lines are collected
verbatim by the inner loop. -/
theorem collectContent_false_middle (cls rest : List Str)
    (h : ∀ l ∈ cls, trimStr l = l ∧ hasPre l (str "Answer:") = false) :
    collectContent false (cls ++ rest) =
      (cls ++ (collectContent false rest).1, (collectContent false rest).2) := by
  induction cls with
  | nil => simp
  | cons l ls ih =>
    obtain ⟨hl1, hl2⟩ := h l (by simp)
    have ihr := ih fun x hx => h x (by simp [hx])
    simp only [List.cons_append, collectContent, hl1, hl2, Bool.false_eq_true,
      if_false, ite_false, List.append_eq]
    rw [ihr]

/-- The inner loop stops at the first answer line and takes the rest of the
original text as the answer. -/
theorem collectContent_trigger (l : Str) (ls : List Str)
    (h : hasPre (trimStr l) (str "Answer:") = true) :
    collectContent false (l :: ls) = ([], trimStr ((joinNl (l :: ls)).drop 7)) := by
  simp only [collectContent, h, if_true, ite_true]

/-- Claim C6 (amended): the round trip
`parse (serialize (actionType, actionContent, answer))` reconstructs the
triple for every triple with no embedded line beginning `Action:`,
`Action content:` or `Answer:` whose components additionally survive the
parser's trimming: the action type is a single trimmed line, every content
line is trimmed (the content given by its line decomposition `cls`) with
the content trimmed as a whole, and the answer is trimmed. -/
theorem c6_round_trip (t : Str) (cls : List Str) (a : Str)
    (ht1 : trimStr t = t) (ht2 : '\n' ∉ t) (ht3 : componentClean t = true)
    (hcls0 : cls ≠ [])
    (hcls1 : ∀ l ∈ cls, '\n' ∉ l ∧ trimStr l = l)
    (hcls2 : trimStr (joinNl cls) = joinNl cls)
    (hcls3 : componentClean (joinNl cls) = true)
    (ha1 : trimStr a = a) (ha2 : componentClean a = true) :
    parseReply (serializeReply t (joinNl cls) a) = (t, joinNl cls, a) := by
  obtain ⟨ht1l, ht1r⟩ := trim_parts t ht1
  obtain ⟨ha1l, ha1r⟩ := trim_parts a ha1
  have hclsNl : ∀ l ∈ cls, '\n' ∉ l := fun l hl => (hcls1 l hl).1
  have hsplitc : splitNl (joinNl cls) = cls := split_join cls hcls0 hclsNl
  have hclean : ∀ l ∈ cls, hasPre l (str "Answer:") = false := by
    intro l hl
    have hall := hcls3
    rw [componentClean, hsplitc, List.all_eq_true] at hall
    have h2 := hall l hl
    simp only [lineClean, Bool.and_eq_true, Bool.not_eq_true'] at h2
    exact h2.2
  obtain ⟨c0, crest, rfl⟩ : ∃ c0 crest, cls = c0 :: crest := by
    cases cls with
    | nil => cases hcls0 rfl
    | cons x xs => exact ⟨x, xs, rfl⟩
  -- the trimmed last segment
  have hAFinal : rtrimStr (str "Answer: " ++ a) =
      (if a = [] then str "Answer:" else str "Answer: " ++ a) := by
    rw [rtrim_append, ha1r]
    by_cases hae : a = []
    · rw [if_pos hae, if_pos hae]
      decide
    · rw [if_neg hae, if_neg hae]
  have hAFne : ¬rtrimStr (str "Answer: " ++ a) = [] := by
    rw [hAFinal]
    by_cases hae : a = []
    · rw [if_pos hae]; decide
    · rw [if_neg hae,
        show str "Answer: " ++ a = 'A' :: (str "nswer: " ++ a) from rfl]
      simp
  -- trimming the whole serialization
  have hA1l : ltrimStr (str "Action: " ++ t) = str "Action: " ++ t := by
    rw [ltrim_append, show ltrimStr (str "Action: ") = str "Action: " from by decide,
      if_neg (by decide : ¬str "Action: " = [])]
  have hA1ne : ¬(str "Action: " ++ t) = [] := by
    rw [show str "Action: " ++ t = 'A' :: (str "ction: " ++ t) from rfl]
    simp
  have htrimS : trimStr (serializeReply t (joinNl (c0 :: crest)) a) =
      (str "Action: " ++ t) ++ '\n' ::
        ((str "Action content: " ++ joinNl (c0 :: crest)) ++ '\n' ::
          rtrimStr (str "Answer: " ++ a)) := by
    unfold serializeReply trimStr
    rw [ltrim_append, hA1l, if_neg hA1ne]
    have hre : (str "Action: " ++ t) ++ '\n' ::
        ((str "Action content: " ++ joinNl (c0 :: crest)) ++ '\n' ::
          (str "Answer: " ++ a)) =
        ((str "Action: " ++ t) ++ '\n' ::
          ((str "Action content: " ++ joinNl (c0 :: crest)) ++ ['\n'])) ++
          (str "Answer: " ++ a) := by
      simp
    rw [hre, rtrim_append, if_neg hAFne]
    simp
  -- splitting into lines
  have hnlA1 : '\n' ∉ str "Action: " ++ t := by
    intro hmem
    rcases List.mem_append.mp hmem with h | h
    · exact absurd h (by decide)
    · exact ht2 h
  have hsplit : splitNl (trimStr (serializeReply t (joinNl (c0 :: crest)) a)) =
      (str "Action: " ++ t) ::
        (((str "Action content: " ++ c0) :: crest) ++
          splitNl (rtrimStr (str "Answer: " ++ a))) := by
    rw [htrimS, splitNl_append_nl _ _ hnlA1]
    congr 1
    rw [← joinNl_cons_append, splitNl_join_append]
    · simp
    · intro l hl
      rcases List.mem_cons.mp hl with rfl | hl2
      · intro hmem
        rcases List.mem_append.mp hmem with h | h
        · exact absurd h (by decide)
        · exact (hcls1 c0 (by simp)).1 h
      · exact (hcls1 l (by simp [hl2])).1
  -- the answer lines
  obtain ⟨R, hAF⟩ : ∃ R, rtrimStr (str "Answer: " ++ a) = str "Answer:" ++ R := by
    rw [hAFinal]
    by_cases hae : a = []
    · exact ⟨[], by rw [if_pos hae]; simp⟩
    · exact ⟨' ' :: a, by rw [if_neg hae]; rfl⟩
  have hansLines : splitNl (rtrimStr (str "Answer: " ++ a)) =
      (str "Answer:" ++ (splitNl R).headD []) :: (splitNl R).tail := by
    rw [hAF]
    exact splitNl_append_head _ _ (by decide)
  have hanshead :
      hasPre (trimStr (str "Answer:" ++ (splitNl R).headD [])) (str "Answer:") = true :=
    hasPre_trim_pref _ _ (by decide) (by decide) (by decide)
  have hanswer : trimStr ((rtrimStr (str "Answer: " ++ a)).drop 7) = a := by
    rw [hAFinal]
    by_cases hae : a = []
    · rw [if_pos hae, hae]; decide
    · rw [if_neg hae, show (str "Answer: " ++ a).drop 7 = ' ' :: a from rfl,
        trim_space, ha1]
  -- facts about the first line
  have htrimA1 := trim_pref_append (str "Action: ") t (by decide) (by decide) ht1r
  have hline1pre : hasPre (trimStr (str "Action: " ++ t)) (str "Action:") = true := by
    rw [htrimA1]
    by_cases hte : t = []
    · rw [if_pos hte]; decide
    · rw [if_neg hte, show str "Action: " ++ t = str "Action:" ++ (' ' :: t) from rfl]
      exact hasPre_append _ _
  have hline1acc : trimStr ((trimStr (str "Action: " ++ t)).drop 7) = t := by
    rw [htrimA1]
    by_cases hte : t = []
    · rw [if_pos hte, hte]; decide
    · rw [if_neg hte, show (str "Action: " ++ t).drop 7 = ' ' :: t from rfl,
        trim_space, ht1]
  -- facts about the content head line
  have hc0trim : trimStr c0 = c0 := (hcls1 c0 (by simp)).2
  have hc0r : rtrimStr c0 = c0 := (trim_parts c0 hc0trim).2
  have htrimL2 := trim_pref_append (str "Action content: ") c0 (by decide) (by decide) hc0r
  have hline2a : hasPre (trimStr (str "Action content: " ++ c0)) (str "Action:") = false := by
    rw [htrimL2]
    by_cases h : c0 = []
    · rw [if_pos h]; decide
    · rw [if_neg h,
        show str "Action content: " ++ c0 = str "Action content:" ++ (' ' :: c0) from rfl]
      exact ac_not_action _
  have hline2b : hasPre (trimStr (str "Action content: " ++ c0)) (str "Action content:") = true := by
    rw [htrimL2]
    by_cases h : c0 = []
    · rw [if_pos h]; decide
    · rw [if_neg h,
        show str "Action content: " ++ c0 = str "Action content:" ++ (' ' :: c0) from rfl]
      exact hasPre_append _ _
  have hline2c : hasPre (trimStr (str "Action content: " ++ c0)) (str "Answer:") = false := by
    rw [htrimL2]
    by_cases h : c0 = []
    · rw [if_pos h]; decide
    · rw [if_neg h,
        show str "Action content: " ++ c0 = str "Action content:" ++ (' ' :: c0) from rfl]
      exact ac_not_answer _
  have hline2drop : trimStr ((trimStr (str "Action content: " ++ c0)).drop 15) = c0 := by
    rw [htrimL2]
    by_cases h : c0 = []
    · rw [if_pos h, h]; decide
    · rw [if_neg h, show (str "Action content: " ++ c0).drop 15 = ' ' :: c0 from rfl,
        trim_space, hc0trim]
  have hcrestfacts : ∀ l ∈ crest, trimStr l = l ∧ hasPre l (str "Answer:") = false :=
    fun l hl => ⟨(hcls1 l (List.mem_cons_of_mem _ hl)).2,
      hclean l (List.mem_cons_of_mem _ hl)⟩
  -- run the parser
  rw [parseReply, hsplit]
  simp only [parseScan, hline1pre, hline1acc, hline2a, hline2b,
    Bool.false_eq_true, if_true, ite_true, if_false, ite_false, List.cons_append]
  simp only [collectContent, hline2c, Bool.false_eq_true, if_false, ite_false,
    if_true, ite_true, hline2drop, List.append_eq]
  rw [collectContent_false_middle crest _ hcrestfacts]
  rw [hansLines, collectContent_trigger _ _ hanshead, ← hansLines]
  rw [show joinNl (splitNl (rtrimStr (str "Answer: " ++ a))) =
      rtrimStr (str "Answer: " ++ a) from join_split _]
  rw [hanswer]
  simp only [List.append_nil]
  rw [hcls2]

/-- Witness for C6 on a concrete well-formed triple. -/
theorem c6_round_trip_witness :
    parseReply (serializeReply (str "next") (joinNl [str "hello"]) (str "world")) =
      (str "next", joinNl [str "hello"], str "world") :=
  c6_round_trip (str "next") [str "hello"] (str "world")
    (by decide) (by decide) (by decide) (by decide) (by decide) (by decide)
    (by decide) (by decide) (by decide)

/-- Claim C6 counterexample (to the claim as stated): the triple
`("next", "hello", " hi")` has no embedded line beginning with a protocol
prefix, yet the round trip loses the answer's leading space because the
parser trims every extracted field. -/
theorem c6_round_trip_counterexample :
    (componentClean (str "next") && componentClean (str "hello") &&
      componentClean (str " hi")) = true ∧
    ¬parseReply (serializeReply (str "next") (str "hello") (str " hi")) =
      (str "next", str "hello", str " hi") := by
  decide
